import Mathlib

/-!
Verification of the WareHouseWeb counting/performance backend.

The embedding models the two Deno edge functions in
`src/src/pages/WorkerDashboard.tsx` (the `counting-data` handler and the
`worker-performance` handler) together with the SQL schema appended to that
file.  Database tables are lists of rows; supabase `.eq(...).single()` is
`single?` of a `filter`; the ambient clock (`new Date()`) is passed in as an
explicit `today` / timestamp argument.  JavaScript `Math.round` is
`fun x => floor (x + 1/2)` and `x || 0` on numeric/nullable columns is
`Option.getD 0` (both agree on the number `0`).
-/

namespace WareHouseWeb

/-- JavaScript `Math.round`: round half toward positive infinity. -/
def jsRound (q : ℚ) : ℤ := Rat.floor (q + 1/2)

/-- `Math.round(x * 100) / 100`: round to two decimal places. -/
def round2 (q : ℚ) : ℚ := ((jsRound (q * 100) : ℤ) : ℚ) / 100

inductive SessionStatus
  | active
  | completed
deriving DecidableEq, Repr

/-- Row of the `users` table (the columns the handlers read). -/
structure UserRow where
  id : String
  user_id : String
  warehouse_name : String
deriving DecidableEq, Repr

/-- Row of the `counting_sessions` table.  Timestamps are milliseconds since
epoch, matching JavaScript `Date.getTime()`. -/
structure CountingSession where
  id : String
  worker_id : String
  team_leader_id : String
  warehouse_name : String
  start_time : ℤ
  end_time : Option ℤ
  status : SessionStatus
deriving DecidableEq, Repr

/-- The SQL generated column of `counting_data`:
`COALESCE(qty_recounted_tl, qty_counted) - qty_as_per_books`. -/
def computeDifference (qty_counted : ℤ) (qty_recounted_tl : Option ℤ)
    (qty_as_per_books : ℤ) : ℤ :=
  qty_recounted_tl.getD qty_counted - qty_as_per_books

/-- Row of the `counting_data` table.  `difference` is the stored value of the
`GENERATED ALWAYS ... STORED` column; no insert/update path takes it as an
input. -/
structure CountingData where
  id : ℕ
  session_id : String
  wh_name : String
  date : String
  tl_name : String
  username : String
  bin_no : String
  qty_counted : ℤ
  qty_recounted_tl : Option ℤ
  qty_as_per_books : ℤ
  difference : ℤ
  reason_for_difference : Option String
deriving DecidableEq, Repr

/-- Row of the `worker_performance` table. -/
structure PerfRow where
  id : ℕ
  wh_name : String
  date : String
  username : String
  no_of_bins_counted : ℤ
  no_of_qty_counted : ℤ
  time_taken_minutes : ℤ
  efficiency : ℚ
  ranking : Option ℤ
deriving DecidableEq, Repr

/-- Row of the `audit_logs` table. -/
structure AuditRow where
  user_id : String
  action : String
  details : String
deriving DecidableEq, Repr

/-- The database state the two handlers touch.  `next*Id` model the
`gen_random_uuid()` / identity defaults: freshly generated primary keys. -/
structure DB where
  users : List UserRow
  sessions : List CountingSession
  counting_data : List CountingData
  worker_performance : List PerfRow
  audit_logs : List AuditRow
  nextDataId : ℕ
  nextPerfId : ℕ
  nextSessionId : ℕ
deriving DecidableEq, Repr

def DB.empty : DB := ⟨[], [], [], [], [], 0, 0, 0⟩

/-- The stats object assembled by the `worker-performance` GET `today` path. -/
structure WorkerStats where
  todayBins : ℤ
  todayQuantity : ℤ
  todayTime : ℤ
  efficiency : ℚ
  ranking : ℤ
deriving DecidableEq, Repr

/-- JSON response bodies produced by the handlers. -/
inductive Body
  | empty
  | errorMsg (msg : String)
  | countingRow (r : CountingData)
  | countingRows (rs : List CountingData)
  | perfRow (r : PerfRow)
  | perfRows (rs : List PerfRow)
  | stats (s : WorkerStats)
  | sessionRow (s : CountingSession)
deriving DecidableEq, Repr

structure Response where
  status : ℕ
  body : Body
deriving DecidableEq, Repr

/-- supabase `.single()`: succeeds exactly when the query returned one row;
with zero or several rows it reports an error (surfaced as `none` where the
handlers destructure the error away). -/
def single? {α : Type} : List α → Option α
  | [a] => some a
  | _ => none

/-- `.from('users').select(...).eq('id', uid).single()` -/
def findUser (db : DB) (uid : String) : Option UserRow :=
  single? (db.users.filter (fun u => u.id == uid))

/-- `.from('counting_sessions').select(...).eq('id', sid).single()` -/
def singleSession (db : DB) (sid : String) : Option CountingSession :=
  single? (db.sessions.filter (fun s => s.id == sid))

/-- `.from('worker_performance').select('*').eq('username', u).eq('date', d)` -/
def perfRowsFor (rows : List PerfRow) (username date : String) : List PerfRow :=
  rows.filter (fun p => p.username == username && p.date == date)

/-- The same query followed by `.single()`. -/
def singlePerf (rows : List PerfRow) (username date : String) : Option PerfRow :=
  single? (perfRowsFor rows username date)

/-- Body of `POST /counting-data`. -/
structure RecordCountReq where
  sessionId : String
  binNo : String
  qtyCountedWorker : ℤ
  qtyAsPerBooks : ℤ
deriving DecidableEq, Repr

/-- The row inserted into `counting_data` by the POST handler.  The client
supplies only bin/quantity data; `difference` is filled in by the generated
column and `qty_recounted_tl` starts out NULL. -/
def mkCountingData (freshId : ℕ) (sessionId whName dateStr tlName username binNo : String)
    (qtyCounted qtyAsPerBooks : ℤ) : CountingData :=
  { id := freshId
    session_id := sessionId
    wh_name := whName
    date := dateStr
    tl_name := tlName
    username := username
    bin_no := binNo
    qty_counted := qtyCounted
    qty_recounted_tl := none
    qty_as_per_books := qtyAsPerBooks
    difference := computeDifference qtyCounted none qtyAsPerBooks
    reason_for_difference := none }

/-- An arbitrary SQL `UPDATE` of the client-writable discrepancy columns of a
`counting_data` row (the team-leader recount path).  The generated column
recomputes `difference`; there is no way to set it directly. -/
def recountUpdate (r : CountingData) (newRecount : Option ℤ) (newReason : Option String) :
    CountingData :=
  { r with
    qty_recounted_tl := newRecount
    reason_for_difference := newReason
    difference := computeDifference r.qty_counted newRecount r.qty_as_per_books }

/-- `counting_data` rows producible by the schema: an insert via the POST
handler's column list followed by any number of recount updates.  In every
step the `difference` column is regenerated from the other columns. -/
inductive GeneratedRecord : CountingData → Prop
  | ins (freshId : ℕ) (sessionId whName dateStr tlName username binNo : String)
      (qtyCounted qtyAsPerBooks : ℤ) :
      GeneratedRecord (mkCountingData freshId sessionId whName dateStr tlName username binNo
        qtyCounted qtyAsPerBooks)
  | upd {r : CountingData} (newRecount : Option ℤ) (newReason : Option String) :
      GeneratedRecord r → GeneratedRecord (recountUpdate r newRecount newReason)

/-- `(existingPerf?.no_of_bins_counted || 0) + 1` -/
def newBinsCount (existingPerf : Option PerfRow) : ℤ :=
  (existingPerf.map (·.no_of_bins_counted)).getD 0 + 1

/-- `(existingPerf?.no_of_qty_counted || 0) + qtyCountedWorker` -/
def newQtyCount (existingPerf : Option PerfRow) (qtyCountedWorker : ℤ) : ℤ :=
  (existingPerf.map (·.no_of_qty_counted)).getD 0 + qtyCountedWorker

/-- `let timeTaken = existingPerf?.time_taken_minutes || 0; if (session.end_time)
{ timeTaken = Math.round((endTime - startTime) / (1000 * 60)) }` -/
def timeTakenOf (existingPerf : Option PerfRow) (session : CountingSession) : ℤ :=
  match session.end_time with
  | some endTime => jsRound (((endTime - session.start_time : ℤ) : ℚ) / (1000 * 60))
  | none => (existingPerf.map (·.time_taken_minutes)).getD 0

/-- `timeTaken > 0 ? Math.round((newBinsCount / (timeTaken / 60)) * 100) / 100 : 0` -/
def efficiencyOf (bins timeTaken : ℤ) : ℚ :=
  if 0 < timeTaken then round2 ((bins : ℚ) / ((timeTaken : ℚ) / 60)) else 0

/-- The read-modify-write of `worker_performance` performed by the
`counting-data` POST handler after a successful insert: update the existing
(username, today) row in place, or insert a fresh one. -/
def applyPerfUpdate (db : DB) (today : String) (session : CountingSession) (worker : UserRow)
    (qtyCountedWorker : ℤ) : DB :=
  match singlePerf db.worker_performance worker.user_id today with
  | some p =>
    { db with
      worker_performance := db.worker_performance.map (fun q =>
        if q.id == p.id then
          { q with
            no_of_bins_counted := newBinsCount (some p)
            no_of_qty_counted := newQtyCount (some p) qtyCountedWorker
            time_taken_minutes := timeTakenOf (some p) session
            efficiency := efficiencyOf (newBinsCount (some p)) (timeTakenOf (some p) session) }
        else q) }
  | none =>
    { db with
      worker_performance := db.worker_performance ++
        [{ id := db.nextPerfId
           wh_name := session.warehouse_name
           date := today
           username := worker.user_id
           no_of_bins_counted := newBinsCount none
           no_of_qty_counted := newQtyCount none qtyCountedWorker
           time_taken_minutes := timeTakenOf none session
           efficiency := efficiencyOf (newBinsCount none) (timeTakenOf none session)
           ranking := none }]
      nextPerfId := db.nextPerfId + 1 }

/-- The POST branch of the `counting-data` edge function. -/
def recordCount (db : DB) (today : String) (req : RecordCountReq) : Response × DB :=
  match singleSession db req.sessionId with
  | none => ({ status := 404, body := .errorMsg "Session not found" }, db)
  | some session =>
    match findUser db session.worker_id, findUser db session.team_leader_id with
    | some worker, some teamLeader =>
      let countingRow := mkCountingData db.nextDataId req.sessionId session.warehouse_name
        today teamLeader.user_id worker.user_id req.binNo req.qtyCountedWorker
        req.qtyAsPerBooks
      let db1 : DB :=
        { db with
          counting_data := db.counting_data ++ [countingRow]
          nextDataId := db.nextDataId + 1 }
      let db2 : DB := applyPerfUpdate db1 today session worker req.qtyCountedWorker
      let db3 : DB :=
        { db2 with
          audit_logs := db2.audit_logs ++
            [{ user_id := session.worker_id
               action := "COUNT_BIN"
               details := "Counted bin " ++ req.binNo ++ ": " ++
                 toString req.qtyCountedWorker ++ " units" }] }
      ({ status := 200, body := .countingRow countingRow }, db3)
    | _, _ => ({ status := 500, body := .errorMsg "Internal server error" }, db)

/-- The GET branch of the `counting-data` edge function: filtered list,
ordered by `created_at` descending (most recent insertion first). -/
def countingDataGet (db : DB) (sessionId workerId dateQ : Option String) : Response × DB :=
  let rows := db.counting_data.filter (fun r =>
    (match sessionId with | some s => r.session_id == s | none => true) &&
    (match workerId with | some w => r.username == w | none => true) &&
    (match dateQ with | some d => r.date == d | none => true))
  ({ status := 200, body := .countingRows rows.reverse }, db)

/-- Requests reaching the `counting-data` edge function (after the CORS
preflight short-circuit). -/
inductive CountingDataReq
  | post (r : RecordCountReq)
  | get (sessionId workerId dateQ : Option String)
deriving DecidableEq, Repr

/-- The `counting-data` edge function.  It rejects any request without an
`Authorization` header before looking at the URL or the database. -/
def countingDataServe (db : DB) (today : String) (authHeader : Option String)
    (req : CountingDataReq) : Response × DB :=
  match authHeader with
  | none => ({ status := 401, body := .errorMsg "No authorization header" }, db)
  | some _ =>
    match req with
    | .post r => recordCount db today r
    | .get sessionId workerId dateQ => countingDataGet db sessionId workerId dateQ

/-- The stats object built from an optional `worker_performance` row:
`performance?.column || 0` on each field (on numbers, `|| 0` agrees with
`Option.getD 0` because `0 || 0` is `0`). -/
def statsOf (perf : Option PerfRow) : WorkerStats :=
  { todayBins := (perf.map (·.no_of_bins_counted)).getD 0
    todayQuantity := (perf.map (·.no_of_qty_counted)).getD 0
    todayTime := (perf.map (·.time_taken_minutes)).getD 0
    efficiency := (perf.map (·.efficiency)).getD 0
    ranking := (perf.bind (·.ranking)).getD 0 }

/-- The `GET /worker-performance/today/{workerId}` branch. -/
def getTodayHandler (db : DB) (today workerId : String) : Response × DB :=
  match findUser db workerId with
  | none => ({ status := 404, body := .errorMsg "User not found" }, db)
  | some user =>
    ({ status := 200
       body := .stats (statsOf (singlePerf db.worker_performance user.user_id today)) }, db)

/-- The GET-list query filter: `.eq('date', d)` plus `.eq('wh_name', w)` when a
warehouse parameter is present. -/
def matchesQuery (warehouse : Option String) (dateQ : String) (p : PerfRow) : Bool :=
  p.date == dateQ && (match warehouse with | some w => p.wh_name == w | none => true)

def filteredQuery (db : DB) (warehouse : Option String) (dateQ : String) : List PerfRow :=
  db.worker_performance.filter (matchesQuery warehouse dateQ)

/-- Insertion step of `.order('efficiency', { ascending: false })`. -/
def insertDesc (p : PerfRow) : List PerfRow → List PerfRow
  | [] => [p]
  | q :: qs => if q.efficiency < p.efficiency then p :: q :: qs else q :: insertDesc p qs

/-- `.order('efficiency', { ascending: false })`: a sort placing larger
efficiencies first (ties in an unspecified stable order). -/
def sortByEfficiencyDesc : List PerfRow → List PerfRow
  | [] => []
  | p :: ps => insertDesc p (sortByEfficiencyDesc ps)

/-- `data.map((item, index) => ({ ...item, ranking: index + 1 }))`, called with
the 1-based starting rank. -/
def assignRanks : ℕ → List PerfRow → List PerfRow
  | _, [] => []
  | i, p :: ps => { p with ranking := some (i : ℤ) } :: assignRanks (i + 1) ps

/-- `.update({ ranking }).eq('id', rid)` -/
def updateRanking (rows : List PerfRow) (rid : ℕ) (rk : Option ℤ) : List PerfRow :=
  rows.map (fun p => if p.id == rid then { p with ranking := rk } else p)

/-- The write-back loop `for (const item of rankedData) ... update(...)`. -/
def persistRankings (rows : List PerfRow) (ranked : List PerfRow) : List PerfRow :=
  ranked.foldl (fun acc r => updateRanking acc r.id r.ranking) rows

/-- The `rankedData` value of the GET-list branch: filter by date/warehouse,
sort by efficiency descending, truncate to `limit`, then assign 1-based
ranks. -/
def rankedResult (db : DB) (warehouse : Option String) (dateQ : String) (limit : ℕ) :
    List PerfRow :=
  assignRanks 1 ((sortByEfficiencyDesc (filteredQuery db warehouse dateQ)).take limit)

/-- The `GET /worker-performance?warehouse=&date=&limit=` branch: returns
`rankedData` and persists each assigned rank back by row id. -/
def listPerformance (db : DB) (warehouse : Option String) (dateQ : String) (limit : ℕ) :
    Response × DB :=
  let rankedData := rankedResult db warehouse dateQ limit
  ({ status := 200, body := .perfRows rankedData },
   { db with worker_performance := persistRankings db.worker_performance rankedData })

/-- Body of `POST /worker-performance` (the insertable columns; `id` is
generated). -/
structure PerfInsert where
  wh_name : String
  date : String
  username : String
  no_of_bins_counted : ℤ
  no_of_qty_counted : ℤ
  time_taken_minutes : ℤ
  efficiency : ℚ
  ranking : Option ℤ
deriving DecidableEq, Repr

/-- The `POST /worker-performance` branch: a plain
`.insert(performanceData).select().single()`.  The schema has no unique
constraint on `(username, date)`, so the insert succeeds regardless of
existing rows for that pair. -/
def workerPerfPost (db : DB) (row : PerfInsert) : Response × DB :=
  let r : PerfRow :=
    { id := db.nextPerfId
      wh_name := row.wh_name
      date := row.date
      username := row.username
      no_of_bins_counted := row.no_of_bins_counted
      no_of_qty_counted := row.no_of_qty_counted
      time_taken_minutes := row.time_taken_minutes
      efficiency := row.efficiency
      ranking := row.ranking }
  ({ status := 200, body := .perfRow r },
   { db with
     worker_performance := db.worker_performance ++ [r]
     nextPerfId := db.nextPerfId + 1 })

/-- Requests reaching the `worker-performance` edge function.  `dateQ` and
`limit` are `none` when the query string omits them (the handler defaults
them to today and 50). -/
inductive WorkerPerfReq
  | getToday (workerId : String)
  | getList (warehouse : Option String) (dateQ : Option String) (limit : Option ℕ)
  | post (row : PerfInsert)
deriving DecidableEq, Repr

/-- The `worker-performance` edge function.  Unlike `counting-data`, it never
reads the `Authorization` header, which is therefore an unused argument. -/
def workerPerfServe (db : DB) (today : String) (authHeader : Option String) :
    WorkerPerfReq → Response × DB
  | .getToday workerId => getTodayHandler db today workerId
  | .getList warehouse dateQ limit => listPerformance db warehouse (dateQ.getD today) (limit.getD 50)
  | .post row => workerPerfPost db row

/-- Modelled from the spec: the `counting-session` start handler is not among
the source files (only its caller `CountingInterface.tsx` is).  Spec §4.1:
`startSession(workerId, teamLeaderId, warehouseName)` creates a session with
`status=active`, `start_time=now`, and must "reject start if an active
session already exists for that worker". -/
def startSession (db : DB) (now : ℤ) (workerId teamLeaderId warehouseName : String) :
    Response × DB :=
  if db.sessions.any (fun s => s.worker_id == workerId && s.status == .active) then
    ({ status := 409, body := .errorMsg "Worker already has an active session" }, db)
  else
    let s : CountingSession :=
      { id := "session-" ++ toString db.nextSessionId
        worker_id := workerId
        team_leader_id := teamLeaderId
        warehouse_name := warehouseName
        start_time := now
        end_time := none
        status := .active }
    ({ status := 200, body := .sessionRow s },
     { db with sessions := db.sessions ++ [s], nextSessionId := db.nextSessionId + 1 })

/-- Modelled from the spec: the `counting-session` end handler is not among
the source files.  Spec §4.1: `endSession(sessionId)` sets `end_time=now`,
`status=completed`, and "fails with InvalidState if already completed". -/
def endSession (db : DB) (now : ℤ) (sessionId : String) : Response × DB :=
  match singleSession db sessionId with
  | none => ({ status := 404, body := .errorMsg "Session not found" }, db)
  | some s =>
    match s.status with
    | .completed => ({ status := 400, body := .errorMsg "Session already completed" }, db)
    | .active =>
      ({ status := 200, body := .empty },
       { db with
         sessions := db.sessions.map (fun t =>
           if t.id == sessionId then { t with end_time := some now, status := .completed }
           else t) })

/-- One request handled against the store: either of the two edge functions,
or one of the spec-modelled session operations. -/
inductive Step : DB → DB → Prop
  | start (db : DB) (now : ℤ) (workerId teamLeaderId warehouseName : String) :
      Step db (startSession db now workerId teamLeaderId warehouseName).2
  | finish (db : DB) (now : ℤ) (sessionId : String) :
      Step db (endSession db now sessionId).2
  | counting (db : DB) (today : String) (authHeader : Option String) (req : CountingDataReq) :
      Step db (countingDataServe db today authHeader req).2
  | perf (db : DB) (today : String) (authHeader : Option String) (req : WorkerPerfReq) :
      Step db (workerPerfServe db today authHeader req).2

/-- States reachable from the empty store by handling requests. -/
inductive Reachable : DB → Prop
  | init : Reachable DB.empty
  | step {db db' : DB} : Reachable db → Step db db' → Reachable db'

/-- The sessions of a worker with `status=active`. -/
def activeSessionsFor (db : DB) (w : String) : List CountingSession :=
  db.sessions.filter (fun s => s.worker_id == w && s.status == .active)

/-- No worker has two simultaneously active sessions. -/
def AtMostOneActive (db : DB) : Prop :=
  ∀ w : String, (activeSessionsFor db w).length ≤ 1

/-! Concrete fixtures used by the scenario conjuncts and witnesses. -/

def workerU : UserRow := ⟨"u-w", "W", "Warehouse A"⟩

def leaderU : UserRow := ⟨"u-t", "T", "Warehouse A"⟩

/-- An active session of worker `W` under team leader `T` in warehouse A. -/
def sessionActive : CountingSession :=
  ⟨"s1", "u-w", "u-t", "Warehouse A", 0, none, .active⟩

/-- A completed session: started at epoch 0, ended 120 minutes later. -/
def sessionDone : CountingSession :=
  ⟨"s2", "u-w", "u-t", "Warehouse A", 0, some 7200000, .completed⟩

def dbScenario : DB :=
  { DB.empty with users := [workerU, leaderU], sessions := [sessionActive] }

/-- First count of the day: bin BIN001, counted 90 against book 100. -/
def scen1 : Response × DB :=
  countingDataServe dbScenario "2024-01-01" (some "token") (.post ⟨"s1", "BIN001", 90, 100⟩)

/-- Second count of the same day: bin BIN002, counted 110 against book 100. -/
def scen2 : Response × DB :=
  countingDataServe scen1.2 "2024-01-01" (some "token") (.post ⟨"s1", "BIN002", 110, 100⟩)

def dbScenDone : DB :=
  { DB.empty with users := [workerU, leaderU], sessions := [sessionDone] }

/-- A count submitted against the completed 120-minute session. -/
def scenDone : Response × DB :=
  countingDataServe dbScenDone "2024-01-01" (some "token") (.post ⟨"s2", "BIN001", 90, 100⟩)

/-- Leaderboard fixtures: three same-day, same-warehouse rows with
efficiencies 5.0, 3.0 and 4.0 and no rank assigned yet. -/
def perfA : PerfRow := ⟨0, "A", "2024-01-02", "workerA", 10, 100, 120, 5, none⟩

def perfB : PerfRow := ⟨1, "A", "2024-01-02", "workerB", 6, 60, 120, 3, none⟩

def perfC : PerfRow := ⟨2, "A", "2024-01-02", "workerC", 8, 80, 120, 4, none⟩

def dbRank : DB :=
  { DB.empty with worker_performance := [perfA, perfB, perfC], nextPerfId := 3 }

/-- A record added by the first scenario count and then recounted by the team
leader to 95 units. -/
def recountedRecord : CountingData :=
  recountUpdate (mkCountingData 0 "s1" "Warehouse A" "2024-01-01" "T" "W" "BIN001" 90 100)
    (some 95) none

/-- An existing performance row for worker `W` on 2024-01-01. -/
def perfW : PerfRow := ⟨0, "A", "2024-01-01", "W", 1, 10, 30, 2, none⟩

def dbDup : DB := { DB.empty with worker_performance := [perfW], nextPerfId := 1 }

/-- A `POST /worker-performance` body for the same `(username, date)` pair as
`perfW`. -/
def dupReq : PerfInsert := ⟨"A", "2024-01-01", "W", 2, 20, 60, 2, none⟩

/-- The performance row present after the first scenario count. -/
def perfScen1Row : PerfRow := ⟨0, "Warehouse A", "2024-01-01", "W", 1, 90, 0, 0, none⟩

/-- A `worker_performance` row with its rank cleared; two rows equal under
`eraseRank` agree on every column except `ranking`. -/
def eraseRank (p : PerfRow) : PerfRow := { p with ranking := none }

/-! Helper lemmas about the embedding. -/

theorem single?_eq_some {α : Type} : ∀ {l : List α} {a : α}, single? l = some a → l = [a]
  | [], _, h => by simp [single?] at h
  | [b], a, h => by
    simp only [single?, Option.some.injEq] at h
    rw [h]
  | _ :: _ :: _, _, h => by simp [single?] at h

theorem singlePerf_mem {rows : List PerfRow} {u d : String} {p : PerfRow}
    (h : singlePerf rows u d = some p) :
    p ∈ rows ∧ p.username = u ∧ p.date = d := by
  have hl : perfRowsFor rows u d = [p] := single?_eq_some h
  have hp : p ∈ perfRowsFor rows u d := by rw [hl]; exact List.mem_singleton_self p
  simp only [perfRowsFor] at hp
  have hm := List.mem_filter.mp hp
  have hb := hm.2
  simp only [Bool.and_eq_true, beq_iff_eq] at hb
  exact ⟨hm.1, hb.1, hb.2⟩

theorem applyPerfUpdate_counting_data (db : DB) (today : String) (s : CountingSession)
    (w : UserRow) (qty : ℤ) :
    (applyPerfUpdate db today s w qty).counting_data = db.counting_data := by
  cases hp : singlePerf db.worker_performance w.user_id today <;>
    simp [applyPerfUpdate, hp]

theorem applyPerfUpdate_sessions (db : DB) (today : String) (s : CountingSession)
    (w : UserRow) (qty : ℤ) :
    (applyPerfUpdate db today s w qty).sessions = db.sessions := by
  cases hp : singlePerf db.worker_performance w.user_id today <;>
    simp [applyPerfUpdate, hp]

theorem recordCount_wp (db : DB) (today : String) (req : RecordCountReq)
    {s : CountingSession} {w tl : UserRow}
    (hs : singleSession db req.sessionId = some s)
    (hw : findUser db s.worker_id = some w)
    (ht : findUser db s.team_leader_id = some tl) :
    (recordCount db today req).2.worker_performance =
      (applyPerfUpdate db today s w req.qtyCountedWorker).worker_performance := by
  simp only [recordCount, hs, hw, ht]
  cases hp : singlePerf db.worker_performance w.user_id today <;>
    simp [applyPerfUpdate, hp]

theorem recordCount_cd (db : DB) (today : String) (req : RecordCountReq)
    {s : CountingSession} {w tl : UserRow}
    (hs : singleSession db req.sessionId = some s)
    (hw : findUser db s.worker_id = some w)
    (ht : findUser db s.team_leader_id = some tl) :
    (recordCount db today req).2.counting_data =
      db.counting_data ++
        [mkCountingData db.nextDataId req.sessionId s.warehouse_name today tl.user_id
          w.user_id req.binNo req.qtyCountedWorker req.qtyAsPerBooks] := by
  simp only [recordCount, hs, hw, ht]
  rw [applyPerfUpdate_counting_data]

theorem recordCount_sessions (db : DB) (today : String) (req : RecordCountReq) :
    (recordCount db today req).2.sessions = db.sessions := by
  cases hs : singleSession db req.sessionId with
  | none => simp [recordCount, hs]
  | some s =>
    cases hw : findUser db s.worker_id with
    | none => simp [recordCount, hs, hw]
    | some w =>
      cases ht : findUser db s.team_leader_id with
      | none => simp [recordCount, hs, hw, ht]
      | some tl =>
        simp only [recordCount, hs, hw, ht]
        rw [applyPerfUpdate_sessions]

theorem applyPerfUpdate_spec (db : DB) (today : String) (s : CountingSession) (w : UserRow)
    (qty : ℤ) :
    ∃ r : PerfRow,
      r ∈ (applyPerfUpdate db today s w qty).worker_performance ∧
      r.username = w.user_id ∧ r.date = today ∧
      r.no_of_bins_counted = newBinsCount (singlePerf db.worker_performance w.user_id today) ∧
      r.no_of_qty_counted = newQtyCount (singlePerf db.worker_performance w.user_id today) qty ∧
      r.time_taken_minutes = timeTakenOf (singlePerf db.worker_performance w.user_id today) s ∧
      r.efficiency = efficiencyOf r.no_of_bins_counted r.time_taken_minutes := by
  cases hp : singlePerf db.worker_performance w.user_id today with
  | none =>
    simp only [applyPerfUpdate, hp]
    exact ⟨{ id := db.nextPerfId
             wh_name := s.warehouse_name
             date := today
             username := w.user_id
             no_of_bins_counted := newBinsCount none
             no_of_qty_counted := newQtyCount none qty
             time_taken_minutes := timeTakenOf none s
             efficiency := efficiencyOf (newBinsCount none) (timeTakenOf none s)
             ranking := none },
      List.mem_append_right _ (List.mem_singleton_self _), rfl, rfl, rfl, rfl, rfl, rfl⟩
  | some p =>
    obtain ⟨hpm, hpu, hpd⟩ := singlePerf_mem hp
    simp only [applyPerfUpdate, hp]
    refine ⟨{ p with
        no_of_bins_counted := newBinsCount (some p)
        no_of_qty_counted := newQtyCount (some p) qty
        time_taken_minutes := timeTakenOf (some p) s
        efficiency := efficiencyOf (newBinsCount (some p)) (timeTakenOf (some p) s) },
      ?_, hpu, hpd, rfl, rfl, rfl, rfl⟩
    exact List.mem_map.mpr ⟨p, hpm, by simp⟩

theorem applyPerfUpdate_rows (db : DB) (today : String) (s : CountingSession) (w : UserRow)
    (qty : ℤ) (r : PerfRow)
    (hr : r ∈ (applyPerfUpdate db today s w qty).worker_performance) :
    r ∈ db.worker_performance ∨
      r.efficiency = efficiencyOf r.no_of_bins_counted r.time_taken_minutes := by
  cases hp : singlePerf db.worker_performance w.user_id today with
  | none =>
    simp only [applyPerfUpdate, hp] at hr
    rcases List.mem_append.mp hr with h | h
    · exact Or.inl h
    · right
      rw [List.mem_singleton.mp h]
  | some p =>
    simp only [applyPerfUpdate, hp] at hr
    rcases List.mem_map.mp hr with ⟨q, hq, hfq⟩
    by_cases hid : (q.id == p.id) = true
    · right
      rw [← hfq]
      simp only [hid, if_true]
    · left
      rw [← hfq]
      simp only [hid, if_false]
      exact hq

/-! Claim theorems. -/

/-- C1: every `counting_data` row produced by the `counting-data` POST handler
stores `difference = (qty_recounted_tl ?? qty_counted) - qty_as_per_books`,
and the generated column keeps that equation through any later recount
update; no insert or update path accepts a client-supplied difference. -/
theorem difference_generated_column :
    (∀ (db : DB) (today : String) (a : Option String) (req : RecordCountReq)
        (r : CountingData),
        r ∈ (countingDataServe db today a (.post req)).2.counting_data →
          r ∈ db.counting_data ∨
            r.difference = r.qty_recounted_tl.getD r.qty_counted - r.qty_as_per_books)
    ∧ (∀ r : CountingData, GeneratedRecord r →
        r.difference = r.qty_recounted_tl.getD r.qty_counted - r.qty_as_per_books) := by
  constructor
  · intro db today a req r hr
    cases a with
    | none => exact Or.inl hr
    | some tok =>
      simp only [countingDataServe] at hr
      cases hs : singleSession db req.sessionId with
      | none => simp only [recordCount, hs] at hr; exact Or.inl hr
      | some s =>
        cases hw : findUser db s.worker_id with
        | none => simp only [recordCount, hs, hw] at hr; exact Or.inl hr
        | some w =>
          cases ht : findUser db s.team_leader_id with
          | none => simp only [recordCount, hs, hw, ht] at hr; exact Or.inl hr
          | some tl =>
            rw [recordCount_cd db today req hs hw ht] at hr
            rcases List.mem_append.mp hr with h | h
            · exact Or.inl h
            · right
              rw [List.mem_singleton.mp h]
              rfl
  · intro r h
    induction h with
    | ins freshId sessionId whName dateStr tlName username binNo qtyCounted qtyAsPerBooks =>
      rfl
    | upd newRecount newReason _ _ => rfl

/-- Witness for C1: the scenario record (90 counted against 100 book units)
recounted by the team leader to 95 satisfies the recomputed-difference
equation. -/
theorem difference_generated_column_witness :
    GeneratedRecord recountedRecord ∧
      recountedRecord.difference =
        recountedRecord.qty_recounted_tl.getD recountedRecord.qty_counted -
          recountedRecord.qty_as_per_books :=
  have h : GeneratedRecord recountedRecord :=
    GeneratedRecord.upd (some 95) none
      (GeneratedRecord.ins 0 "s1" "Warehouse A" "2024-01-01" "T" "W" "BIN001" 90 100)
  ⟨h, difference_generated_column.2 recountedRecord h⟩

/-- C4: a `POST /counting-data` whose sessionId resolves to no session fails
with status 404 `Session not found` and leaves the store untouched: no
counting record, no performance update, no audit-log entry. -/
theorem recordCount_session_not_found (db : DB) (today a : String) (req : RecordCountReq)
    (h : singleSession db req.sessionId = none) :
    countingDataServe db today (some a) (.post req) =
      ({ status := 404, body := .errorMsg "Session not found" }, db) := by
  simp [countingDataServe, recordCount, h]

/-- Witness for C4: an unresolved sessionId against the scenario store. -/
theorem recordCount_session_not_found_witness :
    singleSession dbScenario "missing" = none ∧
      countingDataServe dbScenario "2024-01-01" (some "token")
          (.post ⟨"missing", "BIN001", 90, 100⟩) =
        ({ status := 404, body := .errorMsg "Session not found" }, dbScenario) :=
  ⟨by decide,
   recordCount_session_not_found dbScenario "2024-01-01" "token" ⟨"missing", "BIN001", 90, 100⟩
     (by decide)⟩

/-- C9 counterexample: `POST /worker-performance` is a plain insert, not an
upsert.  Submitting a row for the (username, date) pair `("W", 2024-01-01)`
that already has exactly one row succeeds with status 200 and leaves two rows
for that pair, contradicting update-or-replace and the one-row-per-pair
invariant. -/
theorem workerPerfPost_duplicates :
    (perfRowsFor dbDup.worker_performance "W" "2024-01-01").length = 1 ∧
      (workerPerfPost dbDup dupReq).1.status = 200 ∧
      (perfRowsFor (workerPerfPost dbDup dupReq).2.worker_performance "W" "2024-01-01").length
        = 2 := by
  decide

/-- C9 amended: `POST /worker-performance` always inserts the submitted row:
it returns status 200 and the number of stored rows for the submitted
(username, date) pair grows by one, so an existing pair ends up duplicated
rather than updated (the schema has no unique constraint on the pair). -/
theorem workerPerfPost_plain_insert :
    ∀ (db : DB) (row : PerfInsert),
      (workerPerfPost db row).1.status = 200 ∧
      (perfRowsFor (workerPerfPost db row).2.worker_performance row.username row.date).length =
        (perfRowsFor db.worker_performance row.username row.date).length + 1 := by
  intro db row
  refine ⟨rfl, ?_⟩
  simp [workerPerfPost, perfRowsFor, List.filter_append]

/-- C10: the `counting-data` function answers any request lacking an
`Authorization` header with 401 `No authorization header` and an unchanged
store, for GET and POST alike; the `worker-performance` function performs no
such check and returns the same result with or without the header. -/
theorem auth_header_checks :
    (∀ (db : DB) (today : String) (req : CountingDataReq),
        countingDataServe db today none req =
          ({ status := 401, body := .errorMsg "No authorization header" }, db))
    ∧ (∀ (db : DB) (today : String) (a a2 : Option String) (req : WorkerPerfReq),
        workerPerfServe db today a req = workerPerfServe db today a2 req) := by
  constructor
  · intro db today req
    rfl
  · intro db today a a2 req
    cases req <;> rfl

/-- C3: every `worker_performance` row written (inserted or updated) by the
`counting-data` POST handler satisfies the efficiency equation: when
`time_taken_minutes > 0` the stored efficiency is
`bins / (minutes/60)` rounded to two decimals, and when
`time_taken_minutes = 0` it is `0`. -/
theorem efficiency_formula :
    ∀ (db : DB) (today : String) (a : Option String) (req : RecordCountReq) (r : PerfRow),
      r ∈ (countingDataServe db today a (.post req)).2.worker_performance →
      r ∈ db.worker_performance ∨
        ((0 < r.time_taken_minutes →
            r.efficiency =
              round2 ((r.no_of_bins_counted : ℚ) / ((r.time_taken_minutes : ℚ) / 60))) ∧
          (r.time_taken_minutes = 0 → r.efficiency = 0)) := by
  intro db today a req r hr
  cases a with
  | none => exact Or.inl hr
  | some tok =>
    simp only [countingDataServe] at hr
    cases hs : singleSession db req.sessionId with
    | none => simp only [recordCount, hs] at hr; exact Or.inl hr
    | some s =>
      cases hw : findUser db s.worker_id with
      | none => simp only [recordCount, hs, hw] at hr; exact Or.inl hr
      | some w =>
        cases ht : findUser db s.team_leader_id with
        | none => simp only [recordCount, hs, hw, ht] at hr; exact Or.inl hr
        | some tl =>
          rw [recordCount_wp db today req hs hw ht] at hr
          rcases applyPerfUpdate_rows db today s w req.qtyCountedWorker r hr with h | h
          · exact Or.inl h
          · right
            refine ⟨fun h0 => ?_, fun h0 => ?_⟩
            · rw [h]
              simp [efficiencyOf, h0]
            · rw [h]
              simp [efficiencyOf, h0]

/-- Witness for C3: the row written by the first scenario count (an
open-ended session, so stored minutes are 0) satisfies both branches of the
efficiency equation. -/
theorem efficiency_formula_witness :
    (0 < perfScen1Row.time_taken_minutes →
        perfScen1Row.efficiency =
          round2 ((perfScen1Row.no_of_bins_counted : ℚ) /
            ((perfScen1Row.time_taken_minutes : ℚ) / 60))) ∧
      (perfScen1Row.time_taken_minutes = 0 → perfScen1Row.efficiency = 0) := by
  have h := efficiency_formula dbScenario "2024-01-01" (some "token")
    ⟨"s1", "BIN001", 90, 100⟩ perfScen1Row (by decide)
  exact h.resolve_left (by decide)

/-- C5: a successful `POST /counting-data` leaves a `worker_performance` row
for the session's worker and today whose `no_of_bins_counted` is the previous
stored value (0 when no row existed) plus 1 and whose `no_of_qty_counted` is
the previous stored value plus the submitted quantity; concretely, two
same-day counts of 90 and 110 yield `bins = 2` and `quantity = 200` (after
the first: `bins = 1`, `quantity = 90`). -/
theorem perf_increments :
    (∀ (db : DB) (today a : String) (req : RecordCountReq)
        (s : CountingSession) (w tl : UserRow),
        singleSession db req.sessionId = some s →
        findUser db s.worker_id = some w →
        findUser db s.team_leader_id = some tl →
        (perfRowsFor db.worker_performance w.user_id today).length ≤ 1 →
        ∃ r : PerfRow,
          r ∈ (countingDataServe db today (some a) (.post req)).2.worker_performance ∧
          r.username = w.user_id ∧ r.date = today ∧
          r.no_of_bins_counted =
            ((singlePerf db.worker_performance w.user_id today).map
              (·.no_of_bins_counted)).getD 0 + 1 ∧
          r.no_of_qty_counted =
            ((singlePerf db.worker_performance w.user_id today).map
              (·.no_of_qty_counted)).getD 0 + req.qtyCountedWorker)
    ∧ (perfRowsFor scen1.2.worker_performance "W" "2024-01-01").map
        (fun p => (p.no_of_bins_counted, p.no_of_qty_counted)) = [(1, 90)]
    ∧ (perfRowsFor scen2.2.worker_performance "W" "2024-01-01").map
        (fun p => (p.no_of_bins_counted, p.no_of_qty_counted)) = [(2, 200)] := by
  refine ⟨?_, by decide, by decide⟩
  intro db today a req s w tl hs hw ht _hlen
  simp only [countingDataServe]
  rw [recordCount_wp db today req hs hw ht]
  obtain ⟨r, hmem, hu, hd, hb, hq, _, _⟩ :=
    applyPerfUpdate_spec db today s w req.qtyCountedWorker
  exact ⟨r, hmem, hu, hd, hb, hq⟩

/-- Witness for C5: the general increment statement applied to the first
scenario count. -/
theorem perf_increments_witness :
    ∃ r : PerfRow,
      r ∈ (countingDataServe dbScenario "2024-01-01" (some "token")
          (.post ⟨"s1", "BIN001", 90, 100⟩)).2.worker_performance ∧
      r.username = workerU.user_id ∧ r.date = "2024-01-01" ∧
      r.no_of_bins_counted =
        ((singlePerf dbScenario.worker_performance workerU.user_id "2024-01-01").map
          (·.no_of_bins_counted)).getD 0 + 1 ∧
      r.no_of_qty_counted =
        ((singlePerf dbScenario.worker_performance workerU.user_id "2024-01-01").map
          (·.no_of_qty_counted)).getD 0 + 90 :=
  perf_increments.1 dbScenario "2024-01-01" "token" ⟨"s1", "BIN001", 90, 100⟩
    sessionActive workerU leaderU (by decide) (by decide) (by decide) (by decide)

/-- C7: the `worker_performance` row written by a successful
`POST /counting-data` keeps the previously stored `time_taken_minutes`
(default 0) while the session has no `end_time`, and stores the rounded
elapsed minutes between `start_time` and `end_time` once the session has
ended. -/
theorem time_taken_rule :
    ∀ (db : DB) (today a : String) (req : RecordCountReq)
      (s : CountingSession) (w tl : UserRow),
      singleSession db req.sessionId = some s →
      findUser db s.worker_id = some w →
      findUser db s.team_leader_id = some tl →
      (perfRowsFor db.worker_performance w.user_id today).length ≤ 1 →
      ∃ r : PerfRow,
        r ∈ (countingDataServe db today (some a) (.post req)).2.worker_performance ∧
        r.username = w.user_id ∧ r.date = today ∧
        (s.end_time = none →
          r.time_taken_minutes =
            ((singlePerf db.worker_performance w.user_id today).map
              (·.time_taken_minutes)).getD 0) ∧
        (∀ endTime : ℤ, s.end_time = some endTime →
          r.time_taken_minutes =
            jsRound (((endTime - s.start_time : ℤ) : ℚ) / (1000 * 60))) := by
  intro db today a req s w tl hs hw ht _hlen
  simp only [countingDataServe]
  rw [recordCount_wp db today req hs hw ht]
  obtain ⟨r, hmem, hu, hd, _, _, htime, _⟩ :=
    applyPerfUpdate_spec db today s w req.qtyCountedWorker
  refine ⟨r, hmem, hu, hd, fun hn => ?_, fun endTime he => ?_⟩
  · rw [htime]
    simp [timeTakenOf, hn]
  · rw [htime]
    simp [timeTakenOf, he]

/-- Witness for C7: the time rule applied to a count against the completed
120-minute session. -/
theorem time_taken_rule_witness :
    ∃ r : PerfRow,
      r ∈ (countingDataServe dbScenDone "2024-01-01" (some "token")
          (.post ⟨"s2", "BIN001", 90, 100⟩)).2.worker_performance ∧
      r.username = workerU.user_id ∧ r.date = "2024-01-01" ∧
      (sessionDone.end_time = none →
        r.time_taken_minutes =
          ((singlePerf dbScenDone.worker_performance workerU.user_id "2024-01-01").map
            (·.time_taken_minutes)).getD 0) ∧
      (∀ endTime : ℤ, sessionDone.end_time = some endTime →
        r.time_taken_minutes =
          jsRound (((endTime - sessionDone.start_time : ℤ) : ℚ) / (1000 * 60))) :=
  time_taken_rule dbScenDone "2024-01-01" "token" ⟨"s2", "BIN001", 90, 100⟩
    sessionDone workerU leaderU (by decide) (by decide) (by decide) (by decide)

/-- C8: `GET /worker-performance/today/{workerId}` for a workerId that
resolves to a user returns status 200 with zeroed default stats when no
`worker_performance` row exists for that user and today, and the stats of
the single day-row otherwise — never an error. -/
theorem getToday_zero_default :
    ∀ (db : DB) (today workerId : String) (u : UserRow),
      findUser db workerId = some u →
      ((perfRowsFor db.worker_performance u.user_id today = [] →
          getTodayHandler db today workerId =
            ({ status := 200, body := .stats ⟨0, 0, 0, 0, 0⟩ }, db)) ∧
        (∀ r : PerfRow, perfRowsFor db.worker_performance u.user_id today = [r] →
          getTodayHandler db today workerId =
            ({ status := 200, body := .stats (statsOf (some r)) }, db))) := by
  intro db today workerId u hu
  constructor
  · intro hnone
    simp [getTodayHandler, hu, singlePerf, hnone, single?, statsOf]
  · intro r hone
    simp [getTodayHandler, hu, singlePerf, hone, single?]

/-- Witness for C8: worker `W` before any count (zeroed defaults) and after
the first scenario count (the stats of the single day-row). -/
theorem getToday_zero_default_witness :
    getTodayHandler dbScenario "2024-01-01" "u-w" =
        ({ status := 200, body := .stats ⟨0, 0, 0, 0, 0⟩ }, dbScenario) ∧
      getTodayHandler scen1.2 "2024-01-01" "u-w" =
        ({ status := 200, body := .stats (statsOf (some perfScen1Row)) }, scen1.2) :=
  ⟨(getToday_zero_default dbScenario "2024-01-01" "u-w" workerU (by decide)).1 (by decide),
    (getToday_zero_default scen1.2 "2024-01-01" "u-w" workerU (by decide)).2 perfScen1Row
      (by decide)⟩

/-! Sorting and ranking lemmas for the leaderboard handler. -/

theorem insertDesc_perm (p : PerfRow) (l : List PerfRow) :
    List.Perm (insertDesc p l) (p :: l) := by
  induction l with
  | nil => exact List.Perm.refl _
  | cons q qs ih =>
    by_cases h : q.efficiency < p.efficiency
    · simp only [insertDesc, if_pos h]
      exact List.Perm.refl _
    · simp only [insertDesc, if_neg h]
      exact (ih.cons q).trans (List.Perm.swap p q qs)

theorem sortByEfficiencyDesc_perm (l : List PerfRow) :
    List.Perm (sortByEfficiencyDesc l) l := by
  induction l with
  | nil => exact List.Perm.refl _
  | cons p ps ih => exact (insertDesc_perm p _).trans (ih.cons p)

theorem insertDesc_pairwise (p : PerfRow) (l : List PerfRow)
    (h : List.Pairwise (fun a b => b.efficiency ≤ a.efficiency) l) :
    List.Pairwise (fun a b => b.efficiency ≤ a.efficiency) (insertDesc p l) := by
  induction l with
  | nil => simp [insertDesc]
  | cons q qs ih =>
    rcases List.pairwise_cons.mp h with ⟨hq, hqs⟩
    by_cases hlt : q.efficiency < p.efficiency
    · simp only [insertDesc, if_pos hlt]
      refine List.pairwise_cons.mpr ⟨?_, h⟩
      intro b hb
      rcases List.mem_cons.mp hb with rfl | hb2
      · exact le_of_lt hlt
      · exact le_trans (hq b hb2) (le_of_lt hlt)
    · simp only [insertDesc, if_neg hlt]
      refine List.pairwise_cons.mpr ⟨?_, ih hqs⟩
      intro b hb
      rcases List.mem_cons.mp ((insertDesc_perm p qs).mem_iff.mp hb) with rfl | hb4
      · exact le_of_not_lt hlt
      · exact hq b hb4

theorem sortByEfficiencyDesc_pairwise (l : List PerfRow) :
    List.Pairwise (fun a b => b.efficiency ≤ a.efficiency) (sortByEfficiencyDesc l) := by
  induction l with
  | nil => simp [sortByEfficiencyDesc]
  | cons p ps ih => exact insertDesc_pairwise p _ ih

theorem assignRanks_length (k : ℕ) (l : List PerfRow) :
    (assignRanks k l).length = l.length := by
  induction l generalizing k with
  | nil => rfl
  | cons p ps ih => simp [assignRanks, ih]

theorem assignRanks_ranking (k : ℕ) (l : List PerfRow) :
    (assignRanks k l).map (·.ranking) =
      (List.range l.length).map (fun i => some ((k + i : ℕ) : ℤ)) := by
  induction l generalizing k with
  | nil => rfl
  | cons p ps ih =>
    rw [List.length_cons, List.range_succ_eq_map, List.map_cons, List.map_map]
    simp only [assignRanks, List.map_cons]
    rw [ih]
    refine congrArg₂ List.cons (by simp) (List.map_congr_left ?_)
    intro i _
    simp only [Function.comp_apply]
    congr 1
    omega

theorem assignRanks_mem {k : ℕ} {l : List PerfRow} {r : PerfRow}
    (hr : r ∈ assignRanks k l) : ∃ p ∈ l, eraseRank r = eraseRank p := by
  induction l generalizing k with
  | nil => simp [assignRanks] at hr
  | cons p ps ih =>
    simp only [assignRanks] at hr
    rcases List.mem_cons.mp hr with rfl | h2
    · exact ⟨p, List.mem_cons_self p ps, rfl⟩
    · obtain ⟨q, hq, he⟩ := ih h2
      exact ⟨q, List.mem_cons_of_mem p hq, he⟩

theorem assignRanks_map_id (k : ℕ) (l : List PerfRow) :
    (assignRanks k l).map (·.id) = l.map (·.id) := by
  induction l generalizing k with
  | nil => rfl
  | cons p ps ih => simp [assignRanks, ih]

theorem assignRanks_map_eff (k : ℕ) (l : List PerfRow) :
    (assignRanks k l).map (·.efficiency) = l.map (·.efficiency) := by
  induction l generalizing k with
  | nil => rfl
  | cons p ps ih => simp [assignRanks, ih]

theorem updateRanking_mem_ne {rows : List PerfRow} {x : PerfRow} {rid : ℕ} {rk : Option ℤ}
    (hx : x ∈ rows) (hne : x.id ≠ rid) : x ∈ updateRanking rows rid rk := by
  simp only [updateRanking]
  refine List.mem_map.mpr ⟨x, hx, ?_⟩
  simp [hne]

theorem updateRanking_mem_eq {rows : List PerfRow} {x : PerfRow} {rid : ℕ} {rk : Option ℤ}
    (hx : x ∈ rows) (heq : x.id = rid) :
    { x with ranking := rk } ∈ updateRanking rows rid rk := by
  simp only [updateRanking]
  refine List.mem_map.mpr ⟨x, hx, ?_⟩
  simp [heq]

theorem updateRanking_mem_id {rows : List PerfRow} {x : PerfRow} (rid : ℕ) (rk : Option ℤ)
    (hx : x ∈ rows) : ∃ y ∈ updateRanking rows rid rk, y.id = x.id := by
  by_cases h : x.id = rid
  · exact ⟨_, updateRanking_mem_eq hx h, rfl⟩
  · exact ⟨x, updateRanking_mem_ne hx h, rfl⟩

theorem persistRankings_keep {ranked : List PerfRow} :
    ∀ {rows : List PerfRow} {x : PerfRow}, x ∈ rows → (∀ r ∈ ranked, x.id ≠ r.id) →
      x ∈ persistRankings rows ranked := by
  induction ranked with
  | nil => intro rows x hx _; exact hx
  | cons r rs ih =>
    intro rows x hx hid
    exact ih (updateRanking_mem_ne hx (hid r (List.mem_cons_self r rs)))
      (fun q hq => hid q (List.mem_cons_of_mem r hq))

theorem persistRankings_hits {ranked : List PerfRow} :
    ∀ {rows : List PerfRow} {x r : PerfRow}, x ∈ rows → r ∈ ranked → x.id = r.id →
      (ranked.map (·.id)).Nodup →
      ∃ y ∈ persistRankings rows ranked, y.id = x.id ∧ y.ranking = r.ranking := by
  induction ranked with
  | nil => intro rows x r _ hr; cases hr
  | cons r0 rs ih =>
    intro rows x r hx hr hid hnd
    rw [List.map_cons] at hnd
    have hnd0 := (List.nodup_cons.mp hnd).1
    have hndtail := (List.nodup_cons.mp hnd).2
    rcases List.mem_cons.mp hr with rfl | hr2
    · have hy : { x with ranking := r.ranking } ∈ updateRanking rows r.id r.ranking :=
        updateRanking_mem_eq hx hid
      have hkeep : { x with ranking := r.ranking } ∈
          persistRankings (updateRanking rows r.id r.ranking) rs := by
        apply persistRankings_keep hy
        intro q hq hq2
        exact hnd0 (by
          rw [show r.id = q.id from hid.symm.trans hq2]
          exact List.mem_map_of_mem (·.id) hq)
      exact ⟨_, hkeep, rfl, rfl⟩
    · obtain ⟨x2, hx2, hid2⟩ := updateRanking_mem_id r0.id r0.ranking hx
      obtain ⟨y, hy, hyid, hyr⟩ := ih hx2 hr2 (hid2.trans hid) hndtail
      exact ⟨y, hy, hyid.trans hid2, hyr⟩

theorem rankedResult_length (db : DB) (warehouse : Option String) (dateQ : String)
    (limit : ℕ) :
    (rankedResult db warehouse dateQ limit).length =
      min limit (filteredQuery db warehouse dateQ).length := by
  rw [rankedResult, assignRanks_length, List.length_take,
    (sortByEfficiencyDesc_perm _).length_eq]

theorem rankedResult_ranking (db : DB) (warehouse : Option String) (dateQ : String)
    (limit : ℕ) :
    (rankedResult db warehouse dateQ limit).map (·.ranking) =
      (List.range (rankedResult db warehouse dateQ limit).length).map
        (fun i : ℕ => some ((i + 1 : ℕ) : ℤ)) := by
  rw [rankedResult, assignRanks_ranking, assignRanks_length]
  refine List.map_congr_left ?_
  intro i _
  congr 2
  omega

theorem rankedResult_sorted (db : DB) (warehouse : Option String) (dateQ : String)
    (limit : ℕ) :
    List.Pairwise (fun a b => b.efficiency ≤ a.efficiency)
      (rankedResult db warehouse dateQ limit) := by
  have hbase : List.Pairwise (fun a b => b.efficiency ≤ a.efficiency)
      ((sortByEfficiencyDesc (filteredQuery db warehouse dateQ)).take limit) :=
    (sortByEfficiencyDesc_pairwise _).sublist (List.take_sublist _ _)
  have h1 : List.Pairwise (fun x y : ℚ => y ≤ x)
      (((sortByEfficiencyDesc (filteredQuery db warehouse dateQ)).take limit).map
        (·.efficiency)) :=
    List.pairwise_map.mpr hbase
  rw [← assignRanks_map_eff 1] at h1
  exact List.pairwise_map.mp h1

theorem rankedResult_from_filtered {db : DB} {warehouse : Option String} {dateQ : String}
    {limit : ℕ} {r : PerfRow} (hr : r ∈ rankedResult db warehouse dateQ limit) :
    ∃ p ∈ filteredQuery db warehouse dateQ, eraseRank r = eraseRank p := by
  obtain ⟨q, hq, he⟩ := assignRanks_mem hr
  have hq2 : q ∈ sortByEfficiencyDesc (filteredQuery db warehouse dateQ) :=
    List.take_subset _ _ hq
  exact ⟨q, (sortByEfficiencyDesc_perm _).mem_iff.mp hq2, he⟩

theorem rankedResult_ids_nodup {db : DB} (warehouse : Option String) (dateQ : String)
    (limit : ℕ) (hnd : (db.worker_performance.map (·.id)).Nodup) :
    ((rankedResult db warehouse dateQ limit).map (·.id)).Nodup := by
  rw [rankedResult, assignRanks_map_id, List.map_take]
  have hfil : ((filteredQuery db warehouse dateQ).map (·.id)).Nodup := by
    simp only [filteredQuery]
    exact hnd.sublist (List.Sublist.map (fun p : PerfRow => p.id) (List.filter_sublist _))
  have hsort : ((sortByEfficiencyDesc (filteredQuery db warehouse dateQ)).map
      (·.id)).Nodup :=
    (((sortByEfficiencyDesc_perm _).map (·.id)).nodup_iff).mpr hfil
  exact hsort.sublist (List.take_sublist _ _)

theorem listPerformance_persists {db : DB} {warehouse : Option String} {dateQ : String}
    {limit : ℕ} {r : PerfRow}
    (hnd : (db.worker_performance.map (·.id)).Nodup)
    (hr : r ∈ rankedResult db warehouse dateQ limit) :
    ∃ q ∈ (listPerformance db warehouse dateQ limit).2.worker_performance,
      q.id = r.id ∧ q.ranking = r.ranking := by
  obtain ⟨p, hp, he⟩ := rankedResult_from_filtered hr
  have hpm : p ∈ db.worker_performance := by
    simp only [filteredQuery] at hp
    exact List.mem_of_mem_filter hp
  have hid : p.id = r.id := (congrArg PerfRow.id he).symm
  obtain ⟨y, hy, hyid, hyr⟩ :=
    persistRankings_hits hpm hr hid (rankedResult_ids_nodup warehouse dateQ limit hnd)
  exact ⟨y, hy, hyid.trans hid, hyr⟩

/-- C2: `GET /worker-performance` returns `rankedData`: the day's rows
(optionally filtered by warehouse), sorted by efficiency descending and
truncated to `limit`, carrying ranks that are exactly the 1-based positions
1..n in that returned list; ranking is computed only over this filtered,
truncated set, and each assigned rank is persisted onto the stored row with
the same id.  In the three-worker scenario with efficiencies [5, 3, 4] and
`limit = 2`, workerA gets rank 1 and workerC rank 2, while workerB is
excluded from the result and its stored row stays unranked. -/
theorem listPerformance_ranking_spec :
    (∀ (db : DB) (warehouse : Option String) (dateQ : String) (limit : ℕ),
        (listPerformance db warehouse dateQ limit).1 =
          { status := 200, body := .perfRows (rankedResult db warehouse dateQ limit) } ∧
        (rankedResult db warehouse dateQ limit).map (·.ranking) =
          (List.range (rankedResult db warehouse dateQ limit).length).map
            (fun i : ℕ => some ((i + 1 : ℕ) : ℤ)) ∧
        List.Pairwise (fun a b => b.efficiency ≤ a.efficiency)
          (rankedResult db warehouse dateQ limit) ∧
        (rankedResult db warehouse dateQ limit).length =
          min limit (filteredQuery db warehouse dateQ).length ∧
        (∀ r ∈ rankedResult db warehouse dateQ limit,
          ∃ p ∈ filteredQuery db warehouse dateQ, eraseRank r = eraseRank p) ∧
        ((db.worker_performance.map (·.id)).Nodup →
          ∀ r ∈ rankedResult db warehouse dateQ limit,
            ∃ q ∈ (listPerformance db warehouse dateQ limit).2.worker_performance,
              q.id = r.id ∧ q.ranking = r.ranking))
    ∧ rankedResult dbRank (some "A") "2024-01-02" 2 =
        [{ perfA with ranking := some 1 }, { perfC with ranking := some 2 }]
    ∧ (listPerformance dbRank (some "A") "2024-01-02" 2).2.worker_performance =
        [{ perfA with ranking := some 1 }, perfB, { perfC with ranking := some 2 }] := by
  refine ⟨?_, by decide, by decide⟩
  intro db warehouse dateQ limit
  exact ⟨rfl, rankedResult_ranking db warehouse dateQ limit,
    rankedResult_sorted db warehouse dateQ limit,
    rankedResult_length db warehouse dateQ limit,
    fun r hr => rankedResult_from_filtered hr,
    fun hnd r hr => listPerformance_persists hnd hr⟩

/-- Witness for C2: in the three-worker fixture the rank 1 assigned to
workerA's returned row is persisted onto the stored row with the same id. -/
theorem listPerformance_ranking_spec_witness :
    ∃ q ∈ (listPerformance dbRank (some "A") "2024-01-02" 2).2.worker_performance,
      q.id = ({ perfA with ranking := some 1 } : PerfRow).id ∧
      q.ranking = ({ perfA with ranking := some 1 } : PerfRow).ranking :=
  (listPerformance_ranking_spec.1 dbRank (some "A") "2024-01-02" 2).2.2.2.2.2 (by decide)
    { perfA with ranking := some 1 } (by decide)

/-! Session-invariant lemmas. -/

theorem workerPerfServe_sessions (db : DB) (today : String) (a : Option String)
    (req : WorkerPerfReq) : (workerPerfServe db today a req).2.sessions = db.sessions := by
  cases req with
  | getToday workerId =>
    simp only [workerPerfServe, getTodayHandler]
    cases hu : findUser db workerId <;> simp
  | getList warehouse dateQ limit => rfl
  | post row => rfl

theorem countingDataServe_sessions (db : DB) (today : String) (a : Option String)
    (req : CountingDataReq) : (countingDataServe db today a req).2.sessions = db.sessions := by
  cases a with
  | none => rfl
  | some tok =>
    cases req with
    | post r => exact recordCount_sessions db today r
    | get sessionId workerId dateQ => rfl

theorem length_filter_map_le {α : Type} (f : α → α) (p q : α → Bool) (l : List α)
    (h : ∀ x, p (f x) = true → q x = true) :
    ((l.map f).filter p).length ≤ (l.filter q).length := by
  induction l with
  | nil => simp
  | cons x xs ih =>
    simp only [List.map_cons, List.filter_cons]
    by_cases hp : p (f x) = true
    · rw [if_pos hp, if_pos (h x hp)]
      exact Nat.succ_le_succ ih
    · rw [if_neg hp]
      by_cases hq : q x = true
      · rw [if_pos hq]
        exact Nat.le_trans ih (Nat.le_succ _)
      · rw [if_neg hq]
        exact ih

theorem AtMostOneActive_of_sessions_eq {db db' : DB} (hse : db'.sessions = db.sessions)
    (h : AtMostOneActive db) : AtMostOneActive db' := by
  intro w
  have h1 := h w
  simp only [activeSessionsFor] at h1 ⊢
  rw [hse]
  exact h1

theorem startSession_active (db : DB) (now : ℤ) (workerId teamLeaderId warehouseName : String)
    (h : AtMostOneActive db) :
    AtMostOneActive (startSession db now workerId teamLeaderId warehouseName).2 := by
  intro w
  unfold startSession
  by_cases hb : db.sessions.any (fun s => s.worker_id == workerId && s.status == .active) = true
  · rw [if_pos hb]
    simpa [activeSessionsFor] using h w
  · rw [if_neg hb]
    simp only [activeSessionsFor, List.filter_append]
    by_cases hw : workerId = w
    · subst hw
      have hempty : db.sessions.filter
          (fun s => s.worker_id == workerId && s.status == SessionStatus.active) = [] :=
        List.filter_eq_nil_iff.mpr fun s hs hps => hb (List.any_eq_true.mpr ⟨s, hs, hps⟩)
      rw [hempty]
      simp
    · have h1 := h w
      simp only [activeSessionsFor] at h1
      simpa [hw] using h1

theorem endSession_active (db : DB) (now : ℤ) (sessionId : String)
    (h : AtMostOneActive db) : AtMostOneActive (endSession db now sessionId).2 := by
  intro w
  cases hs : singleSession db sessionId with
  | none => simpa [endSession, hs, activeSessionsFor] using h w
  | some s =>
    cases hst : s.status with
    | completed => simpa [endSession, hs, hst, activeSessionsFor] using h w
    | active =>
      simp only [endSession, hs, hst, activeSessionsFor]
      refine Nat.le_trans (length_filter_map_le _ _ _ _ ?_) (h w)
      intro x hx
      by_cases hid : (x.id == sessionId) = true
      · rw [if_pos hid] at hx
        simp at hx
      · rwa [if_neg hid] at hx

/-- C6 (spec-modelled): in every store reachable through the handlers and the
spec-mandated session operations, no worker has two sessions with
`status=active`; `startSession` rejects a start while one is active, and no
other operation creates or reactivates sessions. -/
theorem at_most_one_active_session (db : DB) (h : Reachable db) : AtMostOneActive db := by
  induction h with
  | init =>
    intro w
    simp [activeSessionsFor, DB.empty]
  | step _ hstep ih =>
    cases hstep with
    | start now workerId teamLeaderId warehouseName =>
      exact startSession_active _ now workerId teamLeaderId warehouseName ih
    | finish now sessionId =>
      exact endSession_active _ now sessionId ih
    | counting today a req =>
      exact AtMostOneActive_of_sessions_eq (countingDataServe_sessions _ today a req) ih
    | perf today a req =>
      exact AtMostOneActive_of_sessions_eq (workerPerfServe_sessions _ today a req) ih

/-- Witness for C6: the invariant holds in the store reached by starting one
session from the empty store. -/
theorem at_most_one_active_session_witness :
    AtMostOneActive (startSession DB.empty 0 "u-w" "u-t" "Warehouse A").2 :=
  at_most_one_active_session _
    (Reachable.step Reachable.init (Step.start DB.empty 0 "u-w" "u-t" "Warehouse A"))

end WareHouseWeb
